import Mathlib

/-!
Verification development for the AI Security Config Scanner (`app.py`).

The program is a single-file Streamlit application.  Its logic relevant to
the specification lives in three places:

* `parse_uploaded_file` (app.py lines 41-75): extension-dispatched content
  normalization (Excel → CSV text, UTF-8 decode, YAML/JSON pretty-print
  with raw-text fallback);
* `call_llm` (app.py lines 78-109): one network call plus a fallback chain
  that extracts text from the response object;
* the download button (app.py lines 143-147): report file naming and MIME.

Modelling conventions (shallow embedding):

* A Python `str` is modelled as `List Char` (`PyStr`); Python string
  operations (`lower`, `endswith`, concatenation, f-strings) are modelled
  on the character list.  `str.lower` is modelled per character with
  `Char.toLower`, which agrees with Python on the ASCII range relevant to
  extension dispatch.
* Python `bytes` is `List Nat` (each entry one byte); `bytes.decode("utf-8")`
  is modelled by the executable strict UTF-8 decoder `utf8Decode` below,
  returning `none` exactly when Python raises `UnicodeDecodeError`.
* The uploaded file object is `UFile` (name, bytes, read cursor); `read()`
  and `seek(0)` are explicit state transitions on the cursor.
* The third-party parsing libraries (`json.loads`/`json.dumps`,
  `yaml.safe_load`/`yaml.safe_dump`, `pandas.read_excel`) are parameters,
  gathered in `Libs`: a parser returns `Option`/`Except` (`none`/`.error`
  models a raised exception caught by the source's `try`).  Properties of
  these libraries (e.g. serialize-then-parse round-trips) are explicit
  hypotheses of the theorems that need them; `pandas.DataFrame.to_csv` is
  modelled executably by `pd_to_csv` (header plus rows, minimal CSV
  quoting, `\n` line terminator, trailing newline, `index=False`).
* A Python function that may raise models the exception as `Option`/`Except`;
  a total Lean function models code that cannot raise.
-/

/-- A Python `str`: a sequence of Unicode scalar values. -/
abbrev PyStr := List Char

/-- Model of Python `str.lower()` on the ASCII range (app.py line 42 applies
it to the file name before any extension test). -/
def pyLower (s : PyStr) : PyStr := s.map Char.toLower

/-- Model of Python `str.endswith(suffix)`. -/
def pyEndsWith (s suffix : PyStr) : Bool := suffix.isSuffixOf s

/-- The uploaded file object handed to `parse_uploaded_file`: a name, the
raw byte content, and the internal read cursor (`pos`).  Streamlit hands the
handler a fresh file with `pos = 0`. -/
structure UFile where
  name : PyStr
  bytes : List Nat
  pos : Nat
deriving DecidableEq, Repr

/-- Model of Python `file.read()`: returns the bytes from the current cursor
to the end and leaves the cursor at end-of-file. -/
def fileRead (f : UFile) : List Nat × UFile :=
  (f.bytes.drop f.pos, { f with pos := f.bytes.length })

/-- Model of Python `file.seek(0)`: resets the cursor to the start. -/
def fileSeek0 (f : UFile) : UFile := { f with pos := 0 }

/-- Strict UTF-8 decoding of a byte sequence, modelling Python's
`bytes.decode("utf-8")`: rejects stray continuation bytes, overlong
encodings, surrogates and code points above `0x10FFFF`; `none` models a
raised `UnicodeDecodeError`. -/
def utf8Decode : List Nat → Option (List Char)
  | [] => some []
  | b1 :: rest =>
    if b1 < 128 then
      (utf8Decode rest).map (fun cs => Char.ofNat b1 :: cs)
    else if b1 < 194 then
      none
    else if b1 < 224 then
      match rest with
      | [] => none
      | b2 :: rest2 =>
        if 128 ≤ b2 ∧ b2 < 192 then
          (utf8Decode rest2).map
            (fun cs => Char.ofNat ((b1 - 192) * 64 + (b2 - 128)) :: cs)
        else none
    else if b1 < 240 then
      match rest with
      | [] => none
      | [_] => none
      | b2 :: b3 :: rest3 =>
        if (128 ≤ b2 ∧ b2 < 192) ∧ (128 ≤ b3 ∧ b3 < 192) ∧
            (b1 = 224 → 160 ≤ b2) ∧ (b1 = 237 → b2 < 160) then
          (utf8Decode rest3).map
            (fun cs =>
              Char.ofNat ((b1 - 224) * 4096 + (b2 - 128) * 64 + (b3 - 128)) :: cs)
        else none
    else if b1 < 245 then
      match rest with
      | [] => none
      | [_] => none
      | [_, _] => none
      | b2 :: b3 :: b4 :: rest4 =>
        if (128 ≤ b2 ∧ b2 < 192) ∧ (128 ≤ b3 ∧ b3 < 192) ∧
            (128 ≤ b4 ∧ b4 < 192) ∧
            (b1 = 240 → 144 ≤ b2) ∧ (b1 = 244 → b2 < 144) then
          (utf8Decode rest4).map
            (fun cs =>
              Char.ofNat ((b1 - 240) * 262144 + (b2 - 128) * 4096 +
                (b3 - 128) * 64 + (b4 - 128)) :: cs)
        else none
    else none

/-- A decoded spreadsheet, as `pandas.read_excel` produces it: one header
row (the column labels) and the data rows, each cell already rendered as
text. -/
structure Frame where
  header : List PyStr
  rows : List (List PyStr)
deriving DecidableEq, Repr

/-- Whether `pandas.DataFrame.to_csv` must quote a field (csv
`QUOTE_MINIMAL`): the field contains the delimiter, the quote character or a
line break. -/
def needsQuote (s : PyStr) : Bool :=
  s.any (fun c => c = ',' || c = '"' || c = '\n' || c = '\r')

/-- CSV field rendering with minimal quoting: a field that needs quoting is
wrapped in double quotes with embedded quotes doubled. -/
def quoteField (s : PyStr) : PyStr :=
  if needsQuote s then
    '"' :: s.flatMap (fun c => if c = '"' then ['"', '"'] else [c]) ++ ['"']
  else s

/-- Join CSV fields of one record with commas. -/
def joinComma : List PyStr → PyStr
  | [] => []
  | [f] => f
  | f :: g :: rest => f ++ ',' :: joinComma (g :: rest)

/-- Model of `pandas.DataFrame.to_csv(index=False)` (app.py line 48): the
header line followed by one line per data row, every line terminated by a
newline, fields comma-separated with minimal quoting, no index column. -/
def pd_to_csv (fr : Frame) : PyStr :=
  (fr.header :: fr.rows).flatMap (fun row => joinComma (row.map quoteField) ++ ['\n'])

/-- The third-party library functions `parse_uploaded_file` calls, as
parameters of the embedding.  `J` and `Y` are the library's value types for
parsed JSON and YAML documents.  A `none`/`.error` result models an
exception raised by the library call and caught by the source's `try`
blocks.  `read_excel` consumes the byte stream from the given cursor and
reports the cursor position it leaves behind. -/
structure Libs (J Y : Type) where
  read_excel : List Nat → Nat → Except PyStr Frame × Nat
  json_loads : PyStr → Option J
  json_dumps_indent2 : J → PyStr
  yaml_safe_load : PyStr → Option Y
  yaml_safe_dump_nosort : Y → PyStr

/-- The extension dispatch of `parse_uploaded_file` (app.py lines 42-75)
on an already-lowercased file name, acting on byte content and cursor:
returns the normalized text and the final cursor position.

* `.xlsx`: `pd.read_excel` then `to_csv(index=False)`; on failure the string
  `"ERROR reading Excel: "` followed by the exception text (lines 45-50).
* otherwise `read()` then UTF-8 decode; on failure the fixed message
  `"Unable to decode file."`, with the cursor left at end-of-file because
  the `seek(0)` on line 55 is skipped when line 54 raises (lines 53-57).
* `.yaml`/`.yml`: `yaml.safe_load` then `yaml.safe_dump(sort_keys=False)`;
  on failure the decoded text (lines 60-65).
* `.json`: `json.loads` then `json.dumps(indent=2)`; on failure the decoded
  text (lines 68-73).
* anything else: the decoded text (line 75). -/
def parse_core {J Y : Type} (L : Libs J Y) (filename : PyStr)
    (bytes : List Nat) (pos : Nat) : PyStr × Nat :=
  if pyEndsWith filename ".xlsx".data then
    match L.read_excel bytes pos with
    | (Except.ok fr, p) => (pd_to_csv fr, p)
    | (Except.error e, p) => ("ERROR reading Excel: ".data ++ e, p)
  else
    match utf8Decode (bytes.drop pos) with
    | none => ("Unable to decode file.".data, bytes.length)
    | some content =>
      if pyEndsWith filename ".yaml".data || pyEndsWith filename ".yml".data then
        match L.yaml_safe_load content with
        | some parsed => (L.yaml_safe_dump_nosort parsed, 0)
        | none => (content, 0)
      else if pyEndsWith filename ".json".data then
        match L.json_loads content with
        | some parsed => (L.json_dumps_indent2 parsed, 0)
        | none => (content, 0)
      else (content, 0)

/-- `parse_uploaded_file` (app.py lines 41-75): lowercases the file name
(line 42), dispatches on the extension, and returns the normalized text
together with the file object as the caller sees it afterwards.  The
function is total: every failure of a library call or of decoding is turned
into a returned string, never a raised exception. -/
def parse_uploaded_file {J Y : Type} (L : Libs J Y) (f : UFile) : PyStr × UFile :=
  let r := parse_core L (pyLower f.name) f.bytes f.pos
  (r.1, { f with pos := r.2 })

/-- One content part of a response output item; `text` models the `.text`
attribute of the part. -/
structure ContentPart where
  text : PyStr
deriving DecidableEq, Repr

/-- One item of `response.output`; `content = none` models an item on which
`hasattr(item, "content")` is false. -/
structure OutputItem where
  content : Option (List ContentPart)
deriving DecidableEq, Repr

/-- The response object returned by `client.responses.create`:
`output_text = none` models an object on which accessing `.output_text`
raises; `raw_str` models `str(response)`. -/
structure LLMResponse where
  output_text : Option PyStr
  output : List OutputItem
  raw_str : PyStr
deriving DecidableEq, Repr

/-- The loop of app.py lines 106-109: scan the output items in order; at the
first item that has a `content` attribute return `item.content[0].text`
(`none` models the `IndexError` raised when that content list is empty);
if no item has a `content` attribute return `str(response)`. -/
def scan_output (items : List OutputItem) (raw : PyStr) : Option PyStr :=
  match items with
  | [] => some raw
  | it :: rest =>
    match it.content with
    | some parts => (parts.head?).map (fun p => p.text)
    | none => scan_output rest raw

/-- The extraction chain of `call_llm` (app.py lines 101-109): try
`response.output_text`; if that raises, scan the structured output items;
`none` models an uncaught exception inside the fallback scan. -/
def extract_text (r : LLMResponse) : Option PyStr :=
  match r.output_text with
  | some t => some t
  | none => scan_output r.output r.raw_str

/-- How `call_llm` can fail: the network call itself raised (`netError`,
app.py lines 92-99, outside any `try`), or the fallback extraction raised
(`indexError`, line 108). -/
inductive CallError (E : Type) where
  | netError (e : E)
  | indexError
deriving DecidableEq, Repr

/-- `call_llm` after prompt construction (app.py lines 92-109), as a
function of the outcome of the network call `client.responses.create`: a
network error propagates unchanged to the caller; on success the extraction
chain runs, itself able to raise. -/
def call_llm {E : Type} (net : Except E LLMResponse) : Except (CallError E) PyStr :=
  match net with
  | Except.error e => Except.error (CallError.netError e)
  | Except.ok r =>
    match extract_text r with
    | some s => Except.ok s
    | none => Except.error CallError.indexError

/-- The download artifact name (app.py line 146):
`f"{uploaded.name}_security_report.md"`. -/
def report_file_name (uploadedName : PyStr) : PyStr :=
  uploadedName ++ "_security_report.md".data

/-- The download artifact MIME type (app.py line 147). -/
def report_mime : PyStr := "text/markdown".data

/-- Split a character list at every occurrence of `sep` (the separator is
consumed).  The result is always nonempty; splitting text that ends with
`sep` yields a trailing empty chunk. -/
def splitOnChar (sep : Char) : List Char → List (List Char)
  | [] => [[]]
  | c :: cs =>
    match splitOnChar sep cs with
    | [] => [[c]]
    | line :: lines =>
      if c = sep then [] :: line :: lines else (c :: line) :: lines

/-- The physical lines of a string that is terminated by a final newline
(such as `pd_to_csv` output): split at `'\n'` and drop the trailing empty
chunk contributed by the final newline. -/
def csvPhysicalLines (s : PyStr) : List PyStr :=
  (splitOnChar '\n' s).dropLast

/-- A concrete serializer for closed evaluations of the parametric theorems:
documents are `Bool`, rendered as the text `true` or `false`. -/
def toyDumps : Bool → PyStr := fun b => if b then "true".data else "false".data

/-- The concrete parser inverting `toyDumps`; any other text fails to
parse. -/
def toyLoads : PyStr → Option Bool :=
  fun s =>
    if s = "true".data then some true
    else if s = "false".data then some false
    else none

/-- A closed instantiation of the library parameters whose spreadsheet
reader always fails; used to evaluate theorems on concrete inputs. -/
def boolLibs : Libs Bool Bool where
  read_excel := fun _ p => (Except.error "boom".data, p)
  json_loads := toyLoads
  json_dumps_indent2 := toyDumps
  yaml_safe_load := toyLoads
  yaml_safe_dump_nosort := toyDumps

/-- A 1-column, 1-row frame whose single data cell contains an embedded
newline, as an Excel sheet with a multi-line cell decodes to. -/
def demoFrameNewline : Frame := ⟨[['c']], [[['a', '\n', 'b']]]⟩

/-- A clean 2-column, 1-row frame (no delimiter, quote or line break in any
cell). -/
def demoFrameClean : Frame := ⟨[['a'], ['b']], [[['1'], ['2']]]⟩

/-- A closed library instantiation whose spreadsheet reader yields
`demoFrameNewline`. -/
def newlineFrameLibs : Libs Bool Bool where
  read_excel := fun _ p => (Except.ok demoFrameNewline, p)
  json_loads := toyLoads
  json_dumps_indent2 := toyDumps
  yaml_safe_load := toyLoads
  yaml_safe_dump_nosort := toyDumps

/-- A closed library instantiation whose spreadsheet reader yields
`demoFrameClean`. -/
def cleanFrameLibs : Libs Bool Bool where
  read_excel := fun _ p => (Except.ok demoFrameClean, p)
  json_loads := toyLoads
  json_dumps_indent2 := toyDumps
  yaml_safe_load := toyLoads
  yaml_safe_dump_nosort := toyDumps

/-- Lowercasing a character twice is the same as doing it once. -/
theorem charToLower_idem (c : Char) :
    Char.toLower (Char.toLower c) = Char.toLower c := by
  unfold Char.toLower
  by_cases h : c.toNat ≥ 65 ∧ c.toNat ≤ 90
  · have hv : (Char.ofNat (c.toNat + 32)).toNat = c.toNat + 32 := by
      have h97 : 97 ≤ c.toNat + 32 := by omega
      have h122 : c.toNat + 32 ≤ 122 := by omega
      set n := c.toNat + 32 with hn
      interval_cases n <;> decide
    have hno : ¬((c.toNat + 32) ≥ 65 ∧ (c.toNat + 32) ≤ 90) := by omega
    rw [if_pos h, hv, if_neg hno]
  · rw [if_neg h, if_neg h]

/-- `pyLower` is idempotent, so a name that is already lowercase dispatches
identically to its original. -/
theorem pyLower_idem (s : PyStr) : pyLower (pyLower s) = pyLower s := by
  induction s with
  | nil => rfl
  | cons c cs ih =>
    simp only [pyLower, List.map_cons] at *
    rw [charToLower_idem]
    exact congrArg _ (by simpa [pyLower] using ih)

/-- Two suffixes of the same string are comparable: one ends with the
other. -/
theorem pyEndsWith_compat (s a b : PyStr) (ha : pyEndsWith s a = true)
    (hb : pyEndsWith s b = true) :
    pyEndsWith b a = true ∨ pyEndsWith a b = true := by
  rw [pyEndsWith, List.isSuffixOf_iff_suffix] at ha hb
  rcases List.suffix_or_suffix_of_suffix ha hb with h | h
  · left
    rw [pyEndsWith, List.isSuffixOf_iff_suffix]
    exact h
  · right
    rw [pyEndsWith, List.isSuffixOf_iff_suffix]
    exact h

/-- If `s` ends with `a`, and neither of `a`, `b` ends with the other, then
`s` does not end with `b`: the extension branches of the dispatch are
mutually exclusive. -/
theorem pyEndsWith_false_of (s a b : PyStr) (ha : pyEndsWith s a = true)
    (h1 : pyEndsWith b a = false) (h2 : pyEndsWith a b = false) :
    pyEndsWith s b = false := by
  by_contra hc
  rw [Bool.not_eq_false] at hc
  rcases pyEndsWith_compat s a b ha hc with h | h
  · rw [h1] at h
    cases h
  · rw [h2] at h
    cases h

/-- The scan loop of app.py lines 106-109 produces a string whenever every
content-bearing output item has a nonempty content list. -/
theorem scan_output_total (items : List OutputItem) (raw : PyStr)
    (h : ∀ it ∈ items, ∀ ps, it.content = some ps → ps ≠ []) :
    ∃ s, scan_output items raw = some s := by
  induction items with
  | nil => exact ⟨raw, rfl⟩
  | cons it rest ih =>
    cases hc : it.content with
    | none =>
      simpa [scan_output, hc] using
        ih (fun x hx ps hps => h x (List.mem_cons_of_mem it hx) ps hps)
    | some ps =>
      cases ps with
      | nil => exact absurd hc (by simpa using h it (List.mem_cons_self it rest) [])
      | cons p tail => exact ⟨p.text, by simp [scan_output, hc]⟩

/-- `splitOnChar` always returns at least one chunk. -/
theorem splitOnChar_ne_nil (sep : Char) (l : List Char) :
    splitOnChar sep l ≠ [] := by
  cases l with
  | nil => simp [splitOnChar]
  | cons c cs =>
    simp only [splitOnChar]
    cases splitOnChar sep cs with
    | nil => simp
    | cons line lines =>
      by_cases h : c = sep <;> simp [h]

/-- Splitting text that does not contain the separator yields that text as
the single chunk. -/
theorem splitOnChar_of_not_mem (sep : Char) (l : List Char) (h : sep ∉ l) :
    splitOnChar sep l = [l] := by
  induction l with
  | nil => rfl
  | cons c cs ih =>
    have hc : ¬(c = sep) := fun he => h (he ▸ List.mem_cons_self c cs)
    have hcs : sep ∉ cs := fun hm => h (List.mem_cons_of_mem c hm)
    simp [splitOnChar, ih hcs, hc]

/-- Splitting `a ++ sep :: rest` when `a` is separator-free peels off `a` as
the first chunk. -/
theorem splitOnChar_append_sep (sep : Char) (a rest : List Char)
    (h : sep ∉ a) :
    splitOnChar sep (a ++ sep :: rest) = a :: splitOnChar sep rest := by
  induction a with
  | nil =>
    simp only [List.nil_append, splitOnChar]
    cases hs : splitOnChar sep rest with
    | nil => exact absurd hs (splitOnChar_ne_nil sep rest)
    | cons line lines => simp
  | cons c cs ih =>
    have hc : ¬(c = sep) := fun he => h (he ▸ List.mem_cons_self c cs)
    have hcs : sep ∉ cs := fun hm => h (List.mem_cons_of_mem c hm)
    simp [splitOnChar, ih hcs, hc]

/-- Splitting a concatenation of separator-terminated, separator-free chunks
recovers the chunks (plus the trailing empty chunk). -/
theorem splitOnChar_flatMap (sep : Char) (lines : List (List Char))
    (h : ∀ l ∈ lines, sep ∉ l) :
    splitOnChar sep (lines.flatMap (fun l => l ++ [sep])) = lines ++ [[]] := by
  induction lines with
  | nil => rfl
  | cons l ls ih =>
    have hl : sep ∉ l := h l (List.mem_cons_self l ls)
    have hls : ∀ x ∈ ls, sep ∉ x := fun x hx => h x (List.mem_cons_of_mem l hx)
    have : (l :: ls).flatMap (fun x => x ++ [sep]) =
        l ++ sep :: ls.flatMap (fun x => x ++ [sep]) := by
      simp [List.flatMap_cons]
    rw [this, splitOnChar_append_sep sep l _ hl, ih hls]
    rfl

/-- Dropping the last element of a list with one element appended recovers
the list. -/
theorem dropLast_append_single {α : Type} (l : List α) (x : α) :
    (l ++ [x]).dropLast = l := by
  simp

/-- Splitting a comma-joined record of comma-free fields recovers the
fields. -/
theorem splitOnChar_joinComma (fields : List PyStr) (hne : fields ≠ [])
    (h : ∀ fl ∈ fields, ',' ∉ fl) :
    splitOnChar ',' (joinComma fields) = fields := by
  induction fields with
  | nil => exact absurd rfl hne
  | cons f rest ih =>
    cases rest with
    | nil =>
      exact splitOnChar_of_not_mem ',' f (h f (List.mem_cons_self f []))
    | cons g tail =>
      have hf : ',' ∉ f := h f (List.mem_cons_self f _)
      have hrest : ∀ fl ∈ g :: tail, ',' ∉ fl :=
        fun fl hfl => h fl (List.mem_cons_of_mem f hfl)
      rw [joinComma, splitOnChar_append_sep ',' f _ hf,
        ih (by simp) hrest]

/-- A field that needs no quoting contains none of the CSV special
characters. -/
theorem not_mem_of_needsQuote_false (s : PyStr) (h : needsQuote s = false) :
    ',' ∉ s ∧ '"' ∉ s ∧ '\n' ∉ s ∧ '\r' ∉ s := by
  rw [needsQuote, List.any_eq_false] at h
  refine ⟨fun hm => ?_, fun hm => ?_, fun hm => ?_, fun hm => ?_⟩ <;>
    simpa using h _ hm

/-- Quoting is the identity on a field that needs no quoting. -/
theorem quoteField_of_clean (s : PyStr) (h : needsQuote s = false) :
    quoteField s = s := by
  simp [quoteField, h]

/-- A comma-joined record of newline-free fields is newline-free. -/
theorem newline_not_mem_joinComma (fields : List PyStr)
    (h : ∀ fl ∈ fields, '\n' ∉ fl) : '\n' ∉ joinComma fields := by
  induction fields with
  | nil => simp [joinComma]
  | cons f rest ih =>
    cases rest with
    | nil => exact h f (List.mem_cons_self f [])
    | cons g tail =>
      rw [joinComma]
      intro hm
      rcases List.mem_append.mp hm with hm | hm
      · exact h f (List.mem_cons_self f _) hm
      · rcases List.mem_cons.mp hm with hm | hm
        · cases hm
        · exact ih (fun fl hfl => h fl (List.mem_cons_of_mem f hfl)) hm

/-- In every non-spreadsheet branch that decodes, the dispatch ends with the
cursor at 0 (the `seek(0)` of app.py line 55). -/
theorem parse_core_snd_of_decoded {J Y : Type} (L : Libs J Y)
    (filename : PyStr) (bytes : List Nat) (pos : Nat) (content : PyStr)
    (hx : pyEndsWith filename ".xlsx".data = false)
    (hdec : utf8Decode (bytes.drop pos) = some content) :
    (parse_core L filename bytes pos).2 = 0 := by
  unfold parse_core
  rw [hx]
  simp only [Bool.false_eq_true, if_false, hdec]
  split
  · split <;> rfl
  · split
    · split <;> rfl
    · rfl

/-- The `.json` branch of `parse_uploaded_file` (app.py lines 68-73): for a
decodable `.json` file the result is `json.dumps(json.loads(content), indent=2)`
when `json.loads` succeeds and the raw decoded text when it raises. -/
theorem parse_uploaded_file_json {J Y : Type} (L : Libs J Y) (f : UFile)
    (hjson : pyEndsWith (pyLower f.name) ".json".data = true)
    (content : PyStr) (hdec : utf8Decode (f.bytes.drop f.pos) = some content) :
    (parse_uploaded_file L f).1 =
      (match L.json_loads content with
       | some parsed => L.json_dumps_indent2 parsed
       | none => content) := by
  have hx : pyEndsWith (pyLower f.name) ".xlsx".data = false :=
    pyEndsWith_false_of _ _ _ hjson (by decide) (by decide)
  have hya : pyEndsWith (pyLower f.name) ".yaml".data = false :=
    pyEndsWith_false_of _ _ _ hjson (by decide) (by decide)
  have hym : pyEndsWith (pyLower f.name) ".yml".data = false :=
    pyEndsWith_false_of _ _ _ hjson (by decide) (by decide)
  simp only [parse_uploaded_file, parse_core, hx, hya, hym, hjson, hdec,
    Bool.false_eq_true, if_false, Bool.or_self, if_true]
  split <;> rfl

/-- The `.yaml`/`.yml` branch of `parse_uploaded_file` (app.py lines 60-65):
for a decodable YAML-named file the result is
`yaml.safe_dump(yaml.safe_load(content), sort_keys=False)` when `safe_load`
succeeds and the raw decoded text when it raises. -/
theorem parse_uploaded_file_yaml {J Y : Type} (L : Libs J Y) (f : UFile)
    (hext : pyEndsWith (pyLower f.name) ".yaml".data = true ∨
      pyEndsWith (pyLower f.name) ".yml".data = true)
    (content : PyStr) (hdec : utf8Decode (f.bytes.drop f.pos) = some content) :
    (parse_uploaded_file L f).1 =
      (match L.yaml_safe_load content with
       | some parsed => L.yaml_safe_dump_nosort parsed
       | none => content) := by
  have hx : pyEndsWith (pyLower f.name) ".xlsx".data = false := by
    rcases hext with h | h
    · exact pyEndsWith_false_of _ _ _ h (by decide) (by decide)
    · exact pyEndsWith_false_of _ _ _ h (by decide) (by decide)
  have hor : (pyEndsWith (pyLower f.name) ".yaml".data ||
      pyEndsWith (pyLower f.name) ".yml".data) = true := by
    rcases hext with h | h <;> simp [h]
  simp only [parse_uploaded_file, parse_core, hx, hor, hdec,
    Bool.false_eq_true, if_false, if_true]
  split <;> rfl

/-- C1: for every file whose name ends in `.json` and whose bytes decode to
valid JSON text, `parse_uploaded_file` returns the re-serialized
(indented) string, and JSON-parsing the returned string yields a value
deep-equal to JSON-parsing the original text.  The round-trip property of
the `json` library (`loads (dumps v) = v` on its value domain) is the
explicit hypothesis `hrt`; deep equality is equality of parsed values in
the library's value type `J`. -/
theorem json_normalize_roundtrip {J Y : Type} (L : Libs J Y)
    (hrt : ∀ v : J, L.json_loads (L.json_dumps_indent2 v) = some v)
    (f : UFile) (hpos : f.pos = 0)
    (hjson : pyEndsWith (pyLower f.name) ".json".data = true)
    (content : PyStr) (hdec : utf8Decode f.bytes = some content)
    (v : J) (hload : L.json_loads content = some v) :
    (parse_uploaded_file L f).1 = L.json_dumps_indent2 v ∧
    L.json_loads (parse_uploaded_file L f).1 = L.json_loads content := by
  have hdec0 : utf8Decode (f.bytes.drop f.pos) = some content := by
    rw [hpos, List.drop_zero]
    exact hdec
  have hmain : (parse_uploaded_file L f).1 = L.json_dumps_indent2 v := by
    rw [parse_uploaded_file_json L f hjson content hdec0, hload]
  refine ⟨hmain, ?_⟩
  rw [hmain, hrt, hload]

/-- C1 witness: a concrete `.json` upload evaluated through the theorem. -/
theorem json_normalize_roundtrip_witness :
    (parse_uploaded_file boolLibs ⟨"a.json".data, [116, 114, 117, 101], 0⟩).1
        = "true".data ∧
    boolLibs.json_loads
        (parse_uploaded_file boolLibs ⟨"a.json".data, [116, 114, 117, 101], 0⟩).1
      = boolLibs.json_loads "true".data :=
  json_normalize_roundtrip boolLibs (by decide)
    ⟨"a.json".data, [116, 114, 117, 101], 0⟩ rfl (by decide)
    "true".data (by decide) true (by decide)

/-- C2: for every file whose name ends in `.yaml` or `.yml` and whose bytes
decode to valid YAML text, `parse_uploaded_file` returns the re-serialized
string, and YAML-parsing the returned string yields a value deep-equal to
YAML-parsing the original text.  The round-trip property of the `yaml`
library for `safe_dump(·, sort_keys=False)` is the hypothesis `hrt`; in any
faithful instantiation of the value type `Y` mappings are ordered
association lists, so equality of the parsed values also states that every
source mapping's key order is preserved in the output. -/
theorem yaml_normalize_roundtrip {J Y : Type} (L : Libs J Y)
    (hrt : ∀ v : Y, L.yaml_safe_load (L.yaml_safe_dump_nosort v) = some v)
    (f : UFile) (hpos : f.pos = 0)
    (hext : pyEndsWith (pyLower f.name) ".yaml".data = true ∨
      pyEndsWith (pyLower f.name) ".yml".data = true)
    (content : PyStr) (hdec : utf8Decode f.bytes = some content)
    (v : Y) (hload : L.yaml_safe_load content = some v) :
    (parse_uploaded_file L f).1 = L.yaml_safe_dump_nosort v ∧
    L.yaml_safe_load (parse_uploaded_file L f).1 = L.yaml_safe_load content := by
  have hdec0 : utf8Decode (f.bytes.drop f.pos) = some content := by
    rw [hpos, List.drop_zero]
    exact hdec
  have hmain : (parse_uploaded_file L f).1 = L.yaml_safe_dump_nosort v := by
    rw [parse_uploaded_file_yaml L f hext content hdec0, hload]
  refine ⟨hmain, ?_⟩
  rw [hmain, hrt, hload]

/-- C2 witness: a concrete `.yml` upload evaluated through the theorem. -/
theorem yaml_normalize_roundtrip_witness :
    (parse_uploaded_file boolLibs ⟨"a.yml".data, [102, 97, 108, 115, 101], 0⟩).1
        = "false".data ∧
    boolLibs.yaml_safe_load
        (parse_uploaded_file boolLibs ⟨"a.yml".data, [102, 97, 108, 115, 101], 0⟩).1
      = boolLibs.yaml_safe_load "false".data :=
  yaml_normalize_roundtrip boolLibs (by decide)
    ⟨"a.yml".data, [102, 97, 108, 115, 101], 0⟩ rfl (Or.inr (by decide))
    "false".data (by decide) false (by decide)

/-- C3: for every `.json`, `.yaml` or `.yml` file whose bytes decode as
UTF-8 but whose text fails to parse (the library call raises and the `try`
of app.py lines 60-65 / 68-73 catches), `parse_uploaded_file` returns the
decoded raw text unchanged; no exception reaches the caller (the embedding
is a total function). -/
theorem malformed_falls_back_to_raw {J Y : Type} (L : Libs J Y) (f : UFile)
    (hpos : f.pos = 0)
    (content : PyStr) (hdec : utf8Decode f.bytes = some content)
    (hcase :
      ((pyEndsWith (pyLower f.name) ".yaml".data = true ∨
          pyEndsWith (pyLower f.name) ".yml".data = true) ∧
        L.yaml_safe_load content = none) ∨
      (pyEndsWith (pyLower f.name) ".json".data = true ∧
        L.json_loads content = none)) :
    (parse_uploaded_file L f).1 = content := by
  have hdec0 : utf8Decode (f.bytes.drop f.pos) = some content := by
    rw [hpos, List.drop_zero]
    exact hdec
  rcases hcase with ⟨hext, hload⟩ | ⟨hext, hload⟩
  · rw [parse_uploaded_file_yaml L f hext content hdec0, hload]
  · rw [parse_uploaded_file_json L f hext content hdec0, hload]

/-- C3 witness: a concrete `.json` upload whose text does not parse,
evaluated through the theorem; the bytes spell `zzz`. -/
theorem malformed_falls_back_to_raw_witness :
    (parse_uploaded_file boolLibs ⟨"a.json".data, [122, 122, 122], 0⟩).1
      = "zzz".data :=
  malformed_falls_back_to_raw boolLibs ⟨"a.json".data, [122, 122, 122], 0⟩
    rfl "zzz".data (by decide) (Or.inr ⟨by decide, by decide⟩)

/-- C4: `parse_uploaded_file` is a total function into strings (the
embedding returns a `PyStr` on every input, modelling that no exception
reaches the caller), and each failure path degrades as described: a `.xlsx`
file whose tabular decode raises yields `"ERROR reading Excel: "` plus the
exception text; any other file whose bytes fail UTF-8 decoding yields
exactly `"Unable to decode file."`; a file whose text fails the JSON/YAML
parse (or carries any other extension) yields the decoded raw text. -/
theorem parse_never_raises {J Y : Type} (L : Libs J Y) (f : UFile) :
    (∀ e p, pyEndsWith (pyLower f.name) ".xlsx".data = true →
      L.read_excel f.bytes f.pos = (Except.error e, p) →
      (parse_uploaded_file L f).1 = "ERROR reading Excel: ".data ++ e) ∧
    (pyEndsWith (pyLower f.name) ".xlsx".data = false →
      utf8Decode (f.bytes.drop f.pos) = none →
      (parse_uploaded_file L f).1 = "Unable to decode file.".data) ∧
    (∀ content, pyEndsWith (pyLower f.name) ".xlsx".data = false →
      utf8Decode (f.bytes.drop f.pos) = some content →
      (((pyEndsWith (pyLower f.name) ".yaml".data = true ∨
            pyEndsWith (pyLower f.name) ".yml".data = true) ∧
          L.yaml_safe_load content = none) ∨
        (pyEndsWith (pyLower f.name) ".json".data = true ∧
          L.json_loads content = none) ∨
        (pyEndsWith (pyLower f.name) ".yaml".data = false ∧
          pyEndsWith (pyLower f.name) ".yml".data = false ∧
          pyEndsWith (pyLower f.name) ".json".data = false)) →
      (parse_uploaded_file L f).1 = content) := by
  refine ⟨?_, ?_, ?_⟩
  · intro e p hx hread
    simp [parse_uploaded_file, parse_core, hx, hread]
  · intro hx hdec
    simp [parse_uploaded_file, parse_core, hx, hdec]
  · intro content hx hdec hcase
    rcases hcase with ⟨hext, hload⟩ | ⟨hext, hload⟩ | ⟨hya, hym, hjs⟩
    · rw [parse_uploaded_file_yaml L f hext content hdec, hload]
    · rw [parse_uploaded_file_json L f hext content hdec, hload]
    · simp [parse_uploaded_file, parse_core, hx, hdec, hya, hym, hjs]

/-- C4 witness: the three degradation paths evaluated on concrete inputs:
a `.xlsx` upload whose reader raises `boom`, a `.txt` upload holding the
invalid UTF-8 byte `0xFF`, and an `.env` upload spelling `k=v`. -/
theorem parse_never_raises_witness :
    (parse_uploaded_file boolLibs ⟨"a.xlsx".data, [0], 0⟩).1
        = "ERROR reading Excel: boom".data ∧
    (parse_uploaded_file boolLibs ⟨"a.txt".data, [255], 0⟩).1
        = "Unable to decode file.".data ∧
    (parse_uploaded_file boolLibs ⟨"a.env".data, [107, 61, 118], 0⟩).1
        = "k=v".data := by
  refine ⟨?_, ?_, ?_⟩
  · have h := (parse_never_raises boolLibs ⟨"a.xlsx".data, [0], 0⟩).1
      "boom".data 0 (by decide) rfl
    exact h.trans (by decide)
  · exact (parse_never_raises boolLibs ⟨"a.txt".data, [255], 0⟩).2.1
      (by decide) (by decide)
  · exact (parse_never_raises boolLibs ⟨"a.env".data, [107, 61, 118], 0⟩).2.2
      "k=v".data (by decide) (by decide)
      (Or.inr (Or.inr ⟨by decide, by decide, by decide⟩))

/-- C5 counterexample: the claim quantifies over every response object, but
a response without a direct text field whose first content-bearing output
item has an empty content list makes `item.content[0]` (app.py line 108)
raise an `IndexError` inside the fallback handler, so `call_llm` does not
return a string; the extraction is modelled as `none` and `call_llm`
surfaces the error instead of a report. -/
theorem llm_extraction_counterexample :
    extract_text ⟨none, [⟨some []⟩], "raw".data⟩ = none ∧
    call_llm (Except.ok ⟨none, [⟨some []⟩], "raw".data⟩ :
        Except Unit LLMResponse)
      = Except.error CallError.indexError := ⟨rfl, rfl⟩

/-- C5 amended: for every response object in which each output item that
carries a `content` attribute has a nonempty content list, `call_llm`
returns a string once the network call succeeds — the direct `output_text`
when available, otherwise the text of the first content part found by
scanning the output items, otherwise the stringified response.  In
particular a response lacking a direct text field with one structured
content item whose text is `FOUND: 1 HIGH issue` yields exactly that
string. -/
theorem llm_extraction_total_amended :
    (∀ r : LLMResponse,
      (∀ it ∈ r.output, ∀ ps, it.content = some ps → ps ≠ []) →
      ∃ s, extract_text r = some s ∧
        call_llm (Except.ok r : Except Unit LLMResponse) = Except.ok s) ∧
    call_llm (Except.ok
        ⟨none, [⟨some [⟨"FOUND: 1 HIGH issue".data⟩]⟩], "raw".data⟩ :
        Except Unit LLMResponse)
      = Except.ok "FOUND: 1 HIGH issue".data := by
  refine ⟨?_, rfl⟩
  intro r h
  cases ht : r.output_text with
  | some t =>
    refine ⟨t, ?_, ?_⟩ <;> simp [extract_text, call_llm, ht]
  | none =>
    obtain ⟨s, hs⟩ := scan_output_total r.output r.raw_str h
    refine ⟨s, ?_, ?_⟩ <;> simp [extract_text, call_llm, ht, hs]

/-- C5 amended witness: the scan fallback evaluated on a concrete response
whose single output item carries one content part. -/
theorem llm_extraction_total_amended_witness :
    ∃ s, extract_text ⟨none, [⟨some [⟨"ok".data⟩]⟩], "raw".data⟩ = some s ∧
      call_llm (Except.ok ⟨none, [⟨some [⟨"ok".data⟩]⟩], "raw".data⟩ :
          Except Unit LLMResponse)
        = Except.ok s :=
  llm_extraction_total_amended.1 ⟨none, [⟨some [⟨"ok".data⟩]⟩], "raw".data⟩
    (by intro it hit ps hps
        simp only [List.mem_singleton] at hit
        subst hit
        injection hps with h
        subst h
        simp)

/-- C6: when the network call `client.responses.create` raises, `call_llm`
propagates the error to its caller unchanged (app.py lines 92-99 are outside
every `try`): the result is the error carrying the same exception value, no
retry happens and no report string is produced. -/
theorem network_error_propagates {E : Type} (e : E) :
    call_llm (Except.error e : Except E LLMResponse)
      = Except.error (CallError.netError e) ∧
    ∀ s, call_llm (Except.error e : Except E LLMResponse) ≠ Except.ok s :=
  ⟨rfl, fun s h => by simp [call_llm] at h⟩

/-- C6 witness: a concrete authentication failure propagated through
`call_llm`. -/
theorem network_error_propagates_witness :
    call_llm (Except.error "AuthenticationError".data :
        Except PyStr LLMResponse)
      = Except.error (CallError.netError "AuthenticationError".data) :=
  (network_error_propagates "AuthenticationError".data).1

/-- C7 counterexample: a 1-column, 1-row sheet whose single data cell
contains an embedded newline.  `to_csv` quotes the cell but keeps the line
break, so the normalized output has 3 physical lines, not N+1 = 2 as the
claim states. -/
theorem spreadsheet_shape_counterexample :
    newlineFrameLibs.read_excel [0] 0 = (Except.ok demoFrameNewline, 0) ∧
    demoFrameNewline.header.length = 1 ∧
    demoFrameNewline.rows.length = 1 ∧
    (∀ row ∈ demoFrameNewline.rows, row.length = 1) ∧
    (parse_uploaded_file newlineFrameLibs ⟨"t.xlsx".data, [0], 0⟩).1
        = "c\n\"a\nb\"\n".data ∧
    (csvPhysicalLines
        (parse_uploaded_file newlineFrameLibs ⟨"t.xlsx".data, [0], 0⟩).1).length
      = 3 ∧
    ¬(3 = 1 + 1) := by
  refine ⟨rfl, rfl, rfl, by decide, by decide, by decide, by decide⟩

/-- C7 amended: for every `.xlsx` file that decodes as tabular data with N
data rows and M ≥ 1 columns, in which no cell contains a comma, a double
quote or a line break (so csv minimal quoting leaves every cell verbatim),
`parse_uploaded_file` returns a string with exactly N+1 physical lines (one
header line plus one line per data row), each splitting at commas into
exactly M fields. -/
theorem spreadsheet_shape_amended {J Y : Type} (L : Libs J Y) (f : UFile)
    (fr : Frame) (p : Nat)
    (hx : pyEndsWith (pyLower f.name) ".xlsx".data = true)
    (hread : L.read_excel f.bytes f.pos = (Except.ok fr, p))
    (hrect : ∀ row ∈ fr.rows, row.length = fr.header.length)
    (hM : 0 < fr.header.length)
    (hclean : ∀ row ∈ fr.header :: fr.rows, ∀ cell ∈ row,
      needsQuote cell = false) :
    (parse_uploaded_file L f).1 = pd_to_csv fr ∧
    (csvPhysicalLines (pd_to_csv fr)).length = fr.rows.length + 1 ∧
    ∀ line ∈ csvPhysicalLines (pd_to_csv fr),
      (splitOnChar ',' line).length = fr.header.length := by
  have hout : (parse_uploaded_file L f).1 = pd_to_csv fr := by
    simp [parse_uploaded_file, parse_core, hx, hread]
  have hid : ∀ row ∈ fr.header :: fr.rows, row.map quoteField = row := by
    intro row hrow
    have := hclean row hrow
    calc row.map quoteField = row.map id :=
          List.map_congr_left (fun cell hc => quoteField_of_clean cell (this cell hc))
      _ = row := List.map_id row
  have hnl : ∀ l ∈ (fr.header :: fr.rows).map
      (fun row => joinComma (row.map quoteField)), '\n' ∉ l := by
    intro l hl
    obtain ⟨row, hrow, rfl⟩ := List.mem_map.mp hl
    rw [hid row hrow]
    exact newline_not_mem_joinComma row
      (fun fl hfl =>
        (not_mem_of_needsQuote_false fl (hclean row hrow fl hfl)).2.2.1)
  have hfm : pd_to_csv fr =
      ((fr.header :: fr.rows).map
        (fun row => joinComma (row.map quoteField))).flatMap
        (fun l => l ++ ['\n']) := by
    rw [pd_to_csv, List.flatMap_map]
  have hlines : csvPhysicalLines (pd_to_csv fr) =
      (fr.header :: fr.rows).map (fun row => joinComma (row.map quoteField)) := by
    rw [csvPhysicalLines, hfm, splitOnChar_flatMap '\n' _ hnl]
    exact dropLast_append_single _ _
  refine ⟨hout, ?_, ?_⟩
  · rw [hlines]
    simp
  · intro line hline
    rw [hlines] at hline
    obtain ⟨row, hrow, rfl⟩ := List.mem_map.mp hline
    have hlen : row.length = fr.header.length := by
      rcases List.mem_cons.mp hrow with h | h
      · rw [h]
      · exact hrect row h
    rw [hid row hrow,
      splitOnChar_joinComma row (by rw [← List.length_pos] at *; omega)
        (fun fl hfl =>
          (not_mem_of_needsQuote_false fl (hclean row hrow fl hfl)).1)]
    exact hlen

/-- C7 amended witness: a clean 2-column, 1-row sheet evaluated through the
theorem: 2 physical lines with 2 comma-separated fields each. -/
theorem spreadsheet_shape_amended_witness :
    (parse_uploaded_file cleanFrameLibs ⟨"t.xlsx".data, [0], 0⟩).1
        = pd_to_csv demoFrameClean ∧
    (csvPhysicalLines (pd_to_csv demoFrameClean)).length
        = demoFrameClean.rows.length + 1 ∧
    ∀ line ∈ csvPhysicalLines (pd_to_csv demoFrameClean),
      (splitOnChar ',' line).length = demoFrameClean.header.length :=
  spreadsheet_shape_amended cleanFrameLibs ⟨"t.xlsx".data, [0], 0⟩
    demoFrameClean 0 (by decide) rfl (by decide) (by decide) (by decide)

/-- C8: for every uploaded file name F the downloadable report is named
`F` followed by `_security_report.md` (the f-string of app.py line 146) and
served with MIME type `text/markdown` (line 147); in particular an upload
named `prod.tf` yields `prod.tf_security_report.md`. -/
theorem download_report_naming :
    (∀ F : PyStr, report_file_name F = F ++ "_security_report.md".data) ∧
    report_file_name "prod.tf".data = "prod.tf_security_report.md".data ∧
    report_mime = "text/markdown".data :=
  ⟨fun _ => rfl, by decide, rfl⟩

/-- C8 witness: the naming rule evaluated on a concrete upload name. -/
theorem download_report_naming_witness :
    report_file_name "config.yaml".data
      = "config.yaml_security_report.md".data :=
  (download_report_naming.1 "config.yaml".data).trans (by decide)

/-- C9 counterexample: an upload whose bytes are not valid UTF-8.  Line 54
of app.py (`read()`) moves the cursor to end-of-file, `decode` raises, and
the bare `except` returns before the `seek(0)` of line 55 runs, so the
cursor is left at 1, not reset to the start as the claim states. -/
theorem cursor_reset_counterexample :
    (parse_uploaded_file boolLibs ⟨"a.txt".data, [255], 0⟩).1
        = "Unable to decode file.".data ∧
    (parse_uploaded_file boolLibs ⟨"a.txt".data, [255], 0⟩).2.pos = 1 ∧
    ¬((parse_uploaded_file boolLibs ⟨"a.txt".data, [255], 0⟩).2.pos = 0) := by
  refine ⟨by decide, by decide, by decide⟩

/-- C9 amended: for every non-`.xlsx` file whose read bytes decode as
UTF-8, `parse_uploaded_file` leaves the file with its cursor reset to the
start and its name and bytes untouched (the only side effect is reading);
when decoding fails the cursor is instead left at end-of-file (the `seek(0)`
is skipped), and in the `.xlsx` branch the cursor is wherever the
spreadsheet reader leaves it (no reset is attempted). -/
theorem cursor_reset_amended {J Y : Type} (L : Libs J Y) (f : UFile)
    (hx : pyEndsWith (pyLower f.name) ".xlsx".data = false) :
    (∀ content, utf8Decode (f.bytes.drop f.pos) = some content →
      (parse_uploaded_file L f).2 = ⟨f.name, f.bytes, 0⟩) ∧
    (utf8Decode (f.bytes.drop f.pos) = none →
      (parse_uploaded_file L f).2 = ⟨f.name, f.bytes, f.bytes.length⟩) := by
  constructor
  · intro content hdec
    have hsnd := parse_core_snd_of_decoded L (pyLower f.name) f.bytes f.pos
      content hx hdec
    simp only [parse_uploaded_file]
    rw [hsnd]
  · intro hdec
    simp only [parse_uploaded_file, parse_core, hx, Bool.false_eq_true,
      if_false, hdec]

/-- C9 amended witness: a concrete decodable `.txt` upload (bytes spelling
`hi`, cursor initially 0) evaluated through the theorem. -/
theorem cursor_reset_amended_witness :
    (parse_uploaded_file boolLibs ⟨"a.txt".data, [104, 105], 0⟩).2
      = ⟨"a.txt".data, [104, 105], 0⟩ :=
  (cursor_reset_amended boolLibs ⟨"a.txt".data, [104, 105], 0⟩
    (by decide)).1 "hi".data (by decide)

/-- C10: extension dispatch is case-insensitive: `parse_uploaded_file`
lowercases the name (app.py line 42) before every extension test, so any
file normalizes exactly (same output text, same final cursor) like the file
with the lowercased name; in particular, for every byte content,
`CONFIG.JSON` is handled like `config.json` and likewise for the `.XLSX`,
`.YAML` and `.YML` variants. -/
theorem extension_dispatch_case_insensitive :
    (∀ (J Y : Type) (L : Libs J Y) (f : UFile),
      (parse_uploaded_file L f).1
          = (parse_uploaded_file L ⟨pyLower f.name, f.bytes, f.pos⟩).1 ∧
      (parse_uploaded_file L f).2.pos
          = (parse_uploaded_file L ⟨pyLower f.name, f.bytes, f.pos⟩).2.pos) ∧
    (∀ (J Y : Type) (L : Libs J Y) (bytes : List Nat),
      (parse_uploaded_file L ⟨"CONFIG.JSON".data, bytes, 0⟩).1
          = (parse_uploaded_file L ⟨"config.json".data, bytes, 0⟩).1 ∧
      (parse_uploaded_file L ⟨"DATA.XLSX".data, bytes, 0⟩).1
          = (parse_uploaded_file L ⟨"data.xlsx".data, bytes, 0⟩).1 ∧
      (parse_uploaded_file L ⟨"A.YAML".data, bytes, 0⟩).1
          = (parse_uploaded_file L ⟨"a.yaml".data, bytes, 0⟩).1 ∧
      (parse_uploaded_file L ⟨"B.YML".data, bytes, 0⟩).1
          = (parse_uploaded_file L ⟨"b.yml".data, bytes, 0⟩).1) := by
  have hgen : ∀ (J Y : Type) (L : Libs J Y) (f : UFile),
      (parse_uploaded_file L f).1
          = (parse_uploaded_file L ⟨pyLower f.name, f.bytes, f.pos⟩).1 ∧
      (parse_uploaded_file L f).2.pos
          = (parse_uploaded_file L ⟨pyLower f.name, f.bytes, f.pos⟩).2.pos := by
    intro J Y L f
    simp [parse_uploaded_file, pyLower_idem]
  refine ⟨hgen, ?_⟩
  intro J Y L bytes
  refine ⟨?_, ?_, ?_, ?_⟩
  · have h := (hgen J Y L ⟨"CONFIG.JSON".data, bytes, 0⟩).1
    rw [show pyLower "CONFIG.JSON".data = "config.json".data from by decide] at h
    exact h
  · have h := (hgen J Y L ⟨"DATA.XLSX".data, bytes, 0⟩).1
    rw [show pyLower "DATA.XLSX".data = "data.xlsx".data from by decide] at h
    exact h
  · have h := (hgen J Y L ⟨"A.YAML".data, bytes, 0⟩).1
    rw [show pyLower "A.YAML".data = "a.yaml".data from by decide] at h
    exact h
  · have h := (hgen J Y L ⟨"B.YML".data, bytes, 0⟩).1
    rw [show pyLower "B.YML".data = "b.yml".data from by decide] at h
    exact h

/-- C10 witness: the uppercase-named upload evaluated on concrete bytes
through the theorem. -/
theorem extension_dispatch_case_insensitive_witness :
    (parse_uploaded_file boolLibs
        ⟨"CONFIG.JSON".data, [116, 114, 117, 101], 0⟩).1
      = (parse_uploaded_file boolLibs
          ⟨"config.json".data, [116, 114, 117, 101], 0⟩).1 :=
  (extension_dispatch_case_insensitive.2 Bool Bool boolLibs
    [116, 114, 117, 101]).1
